import Mathlib

/-!
Verification development for the multi-provider LLM request orchestrator of
the Prompt-Playground repository (`src/app/api/llm/route.ts`).

The route file defines a static model registry (`MODEL_CONFIGS`), an
in-memory per-model health map (`modelHealth` / `updateModelHealth` /
`getHealthyModels`), a transport wrapper (`callOpenRouter`) and the `POST`
handler that validates input, clamps `max_tokens`, filters candidates by the
`provider` hint, and runs the retry/fallback loop.

The embedding below is shallow: the network transport is abstracted as an
oracle `Oracle : String → Nat → TransportResult` giving, for each model name
and 0-indexed attempt number, either an HTTP response (status, optionally
parsed body, raw body text, response time) or a thrown exception.  The
retry/fallback loop of `POST` becomes structural recursion on the remaining
attempt budget, and it produces a trace of observable events: transport
invocations (`Event.call`, carrying the request payload sent upstream) and
backoff sleeps (`Event.sleep`).  `res.ok` of `fetch` is the 2xx predicate on
the status.  JS numbers holding timestamps and failure counters are embedded
as `Int`, response times and token counts where they occur, and the rolling
average response time as `ℚ`.
-/

/-- One entry of `MODEL_CONFIGS` in the route: model name, `priority`,
`maxRetries` (the spec calls this `maxAttempts`). -/
structure ModelConfig where
  model : String
  priority : Int
  maxRetries : Nat
deriving DecidableEq, Repr

/-- `MODEL_CONFIGS` as a priority-ordered list, parameterized by the two
environment-overridable model names (`LLM_PRIMARY_MODEL`,
`LLM_SECONDARY_MODEL`). -/
def MODEL_CONFIGS (primaryModel secondaryModel : String) : List ModelConfig :=
  [⟨primaryModel, 1, 2⟩, ⟨secondaryModel, 2, 3⟩,
   ⟨"meta-llama/llama-3.1-8b-instruct:free", 3, 1⟩]

/-- The registry with both environment overrides absent (the defaults in the
source). -/
def defaultConfigs : List ModelConfig :=
  MODEL_CONFIGS "x-ai/grok-4-fast:free" "deepseek/deepseek-chat"

def MAX_TOKENS_DEFAULT : Int := 1200

def MAX_TOKENS_HARD_CAP : Int := 2000

/-- `FALLBACK_STATUS = new Set([402, 429, 500, 502, 503, 504])`. -/
def FALLBACK_STATUS : List Nat := [402, 429, 500, 502, 503, 504]

/-- The retryable upstream error codes checked against
`result.data?.error?.code`. -/
def RETRYABLE_CODES : List String :=
  ["insufficient_quota", "insufficient_provider_quota", "payment_required",
   "rate_limited"]

/-- One value of the `modelHealth` map: `lastSuccess` (epoch ms, initially
0), `failures`, `avgResponseTime`. -/
structure Health where
  lastSuccess : Int
  failures : Int
  avgResponseTime : ℚ
deriving DecidableEq

/-- The `modelHealth` map, keyed by model name; `none` means no record has
been created for the model yet. -/
abbrev HealthMap : Type := String → Option Health

def emptyHealth : HealthMap := fun _ => none

/-- `updateModelHealth(model, success, responseTime?)`, with `Date.now()`
made an explicit `now` argument.  On success: `lastSuccess = now`,
`failures = max(0, failures - 1)`, and — only when `responseTime` is truthy,
i.e. present and nonzero — `avgResponseTime = (avgResponseTime + rt) / 2`.
On failure: `failures++`, other fields unchanged. -/
def updateModelHealth (hm : HealthMap) (model : String) (success : Bool)
    (responseTime : Option ℚ) (now : Int) : HealthMap :=
  let health := (hm model).getD ⟨0, 0, 0⟩
  let h' :=
    if success then
      { lastSuccess := now
        failures := max 0 (health.failures - 1)
        avgResponseTime :=
          match responseTime with
          | some rt =>
              if rt ≠ 0 then (health.avgResponseTime + rt) / 2
              else health.avgResponseTime
          | none => health.avgResponseTime }
    else
      { health with failures := health.failures + 1 }
  fun m => if m = model then some h' else hm m

/-- The filter body of `getHealthyModels`: a config passes unless BOTH
`failures > 3` AND `now - lastSuccess > 300000`; a model with no record
passes. -/
def healthFilter (hm : HealthMap) (now : Int) (config : ModelConfig) : Bool :=
  match hm config.model with
  | none => true
  | some health =>
    let recentFailures := decide (3 < health.failures)
    let oldLastSuccess := decide (300000 < now - health.lastSuccess)
    !(recentFailures && oldLastSuccess)

/-- The comparator `(a, b) => a.priority - b.priority` as an order
relation. -/
def priorityOrder (a b : ModelConfig) : Prop := a.priority ≤ b.priority

instance : DecidableRel priorityOrder :=
  fun a b => Int.decLe a.priority b.priority

instance : IsTotal ModelConfig priorityOrder :=
  ⟨fun a b => Int.le_total a.priority b.priority⟩

instance : IsTrans ModelConfig priorityOrder :=
  ⟨fun _ _ _ hab hbc => Int.le_trans hab hbc⟩

/-- `getHealthyModels()`: filter the registry by `healthFilter`, then sort
ascending by priority (a stable sort, as `Array.prototype.sort` is in the
JS runtime). -/
def getHealthyModels (registry : List ModelConfig) (hm : HealthMap)
    (now : Int) : List ModelConfig :=
  (registry.filter (healthFilter hm now)).insertionSort priorityOrder

/-- The part of a parsed JSON response body the orchestrator inspects:
`data?.error?.code` (collapsed to one optional string), plus the rest of the
body kept opaque. -/
structure RespData where
  errorCode : Option String
  content : String
deriving DecidableEq

/-- Outcome of one `callOpenRouter` invocation: an HTTP response (with
`data` absent when the body did not parse as JSON) or a thrown
network/timeout exception. -/
inductive TransportResult where
  | resp (status : Nat) (data : Option RespData) (raw : String)
      (responseTime : Nat)
  | exn (msg : String)
deriving DecidableEq

/-- `res.ok` of `fetch`: status in the range 200–299. -/
def respOk (status : Nat) : Bool := 200 ≤ status && status ≤ 299

/-- The error-code disjunct of `shouldFallback`:
`result.data?.error?.code && [...].includes(result.data.error.code)`. -/
def retryableCode : Option RespData → Bool
  | some d =>
    match d.errorCode with
    | some c => !(c == "") && RETRYABLE_CODES.contains c
    | none => false
  | none => false

/-- `shouldFallback`: status in `FALLBACK_STATUS`, or a retryable parsed
error code. -/
def shouldFallback (status : Nat) (data : Option RespData) : Bool :=
  FALLBACK_STATUS.contains status || retryableCode data

/-- `result.data || result.raw`: the parsed body when present (a parsed
object is truthy), otherwise the raw body text. -/
inductive Details where
  | parsed (d : RespData)
  | rawBody (s : String)
deriving DecidableEq

def detailsOf : Option RespData → String → Details
  | some d, _ => .parsed d
  | none, raw => .rawBody raw

/-- The `lastError` record kept by the loop: either the HTTP-failure shape
`{model, status, details, attempt}` or the exception shape
`{model, error, attempt}` (attempt is 1-indexed, `attempt + 1` in source). -/
inductive LastError where
  | httpErr (model : String) (status : Nat) (details : Details)
      (attempt : Nat)
  | exnErr (model : String) (msg : String) (attempt : Nat)
deriving DecidableEq

/-- Terminal results of the `POST` handler:
success `{model_used, response_time, attempt, ...data}`;
the fatal single-attempt error `{model_attempted, status, attempt,
details}`; the aggregate `"All providers failed after retries"` response
carrying `lastError`; the `"No healthy models available"` response; and the
`"messages[] is required"` validation response. -/
inductive Outcome where
  | success (modelUsed : String) (responseTime : Nat) (attempt : Nat)
      (data : RespData)
  | fatal (modelAttempted : String) (status : Nat) (attempt : Nat)
      (details : Details)
  | aggregate (lastError : Option LastError)
  | noCandidates
  | invalidMessages
deriving DecidableEq

/-- The list of per-attempt outcomes contained in the terminal aggregate
response (the source stores a single `lastError`, so this is at most a
singleton); `none` for non-aggregate outcomes. -/
def Outcome.attemptsContained : Outcome → Option (List LastError)
  | .aggregate le => some le.toList
  | _ => none

structure ChatMessage where
  role : String
  content : String
deriving DecidableEq

/-- The `basePayload` sent upstream (the `model` field is added per call and
is recorded separately in the call event). -/
structure Payload where
  messages : List ChatMessage
  maxTokens : Int
  temperature : Option ℚ
  topP : Option ℚ
deriving DecidableEq

/-- Observable events of one orchestration run: a transport invocation for
a model at a 0-indexed attempt with the payload sent, or a backoff sleep. -/
inductive Event where
  | call (model : String) (attempt : Nat) (payload : Payload)
  | sleep (ms : Nat)
deriving DecidableEq

def Event.isCall : Event → Bool
  | .call _ _ _ => true
  | .sleep _ => false

/-- Number of transport invocations in a trace. -/
def callCount (tr : List Event) : Nat := (tr.filter Event.isCall).length

/-- Number of transport invocations for one given model in a trace. -/
def callsTo (tr : List Event) (model : String) : Nat :=
  (tr.filter fun e =>
    match e with
    | .call m _ _ => m == model
    | .sleep _ => false).length

/-- Classification of one attempt, mirroring the branch structure of the
loop body: `result.ok && result.data` → success; otherwise `shouldFallback`
→ retryable (recording `lastError` and the backoff delay
`2^attempt * 1000` ms, or the fixed 1000 ms for a thrown exception);
otherwise fatal. -/
inductive StepClass where
  | succOut (data : RespData) (responseTime : Nat)
  | retry (err : LastError) (delayMs : Nat)
  | fatalStep (status : Nat) (details : Details)
deriving DecidableEq

def classifyStep (model : String) (attempt : Nat) :
    TransportResult → StepClass
  | .resp status data raw rt =>
    match data, respOk status with
    | some d, true => .succOut d rt
    | _, _ =>
      if shouldFallback status data then
        .retry (.httpErr model status (detailsOf data raw) (attempt + 1))
          (2 ^ attempt * 1000)
      else
        .fatalStep status (detailsOf data raw)
  | .exn msg => .retry (.exnErr model msg (attempt + 1)) 1000

def isRetryStep : StepClass → Bool
  | .retry _ _ => true
  | _ => false

/-- The transport abstraction: what `callOpenRouter` yields for a given
model at a given 0-indexed attempt of this orchestration call. -/
abbrev Oracle : Type := String → Nat → TransportResult

/-- The health update `callOpenRouter` performs before returning or
rethrowing: `updateModelHealth(model, res.ok, responseTime)` on a response,
`updateModelHealth(model, false)` on an exception. -/
def healthStep (hm : HealthMap) (model : String) (now : Int) :
    TransportResult → HealthMap
  | .resp status _ _ rt =>
      updateModelHealth hm model (respOk status) (some (rt : ℚ)) now
  | .exn _ => updateModelHealth hm model false none now

structure AttemptsResult where
  trace : List Event
  health : HealthMap
  result : Option Outcome
  lastErr : Option LastError

/-- The inner `for (attempt = 0; attempt < maxRetries; attempt++)` loop for
one model, as recursion on the remaining budget (`attempt + remaining`
equals `mc.maxRetries` at the top-level call).  A success or a fatal
classification terminates with `result = some _`; a retryable one sleeps
`delayMs` and retries while `attempt < maxRetries - 1` (written
`attempt + 1 < maxRetries`), else leaves the loop with the recorded
`lastError`. -/
def runAttempts (oracle : Oracle) (now : Int) (payload : Payload)
    (mc : ModelConfig) :
    Nat → Nat → HealthMap → Option LastError → AttemptsResult
  | _, 0, hm, le => ⟨[], hm, none, le⟩
  | attempt, r + 1, hm, le =>
    let tres := oracle mc.model attempt
    let hm' := healthStep hm mc.model now tres
    match classifyStep mc.model attempt tres with
    | .succOut d rt =>
      ⟨[.call mc.model attempt payload], hm',
       some (.success mc.model rt (attempt + 1) d), le⟩
    | .fatalStep status details =>
      ⟨[.call mc.model attempt payload], hm',
       some (.fatal mc.model status (attempt + 1) details), le⟩
    | .retry err delayMs =>
      if attempt + 1 < mc.maxRetries then
        let rest := runAttempts oracle now payload mc (attempt + 1) r hm'
          (some err)
        ⟨.call mc.model attempt payload :: .sleep delayMs :: rest.trace,
         rest.health, rest.result, rest.lastErr⟩
      else
        ⟨[.call mc.model attempt payload], hm', none, some err⟩

structure RunResult where
  trace : List Event
  health : HealthMap
  outcome : Outcome

/-- The outer `for (const modelConfig of availableModels)` loop: run each
model's attempt loop in order; a terminal result short-circuits; an
exhausted list yields the aggregate response with the final `lastError`. -/
def runModels (oracle : Oracle) (now : Int) (payload : Payload) :
    List ModelConfig → HealthMap → Option LastError → RunResult
  | [], hm, le => ⟨[], hm, .aggregate le⟩
  | mc :: rest, hm, le =>
    let ar := runAttempts oracle now payload mc 0 mc.maxRetries hm le
    match ar.result with
    | some o => ⟨ar.trace, ar.health, o⟩
    | none =>
      let rr := runModels oracle now payload rest ar.health ar.lastErr
      ⟨ar.trace ++ rr.trace, rr.health, rr.outcome⟩

/-- The `messages` field of the request body after `const { messages = [] }`
destructuring: absent, present but not an array, or an array. -/
inductive MessagesField where
  | absent
  | notList
  | list (ms : List ChatMessage)
deriving DecidableEq

/-- A JSON field checked with `typeof x === "number"`: a number, or
anything else (including absent). -/
inductive NumField where
  | num (n : Int)
  | notNum
deriving DecidableEq

/-- The request body fields the handler destructures (the `timeout` field
only parameterizes the abstracted transport and is omitted). -/
structure ReqBody where
  messages : MessagesField
  maxTokens : NumField
  temperature : Option ℚ
  topP : Option ℚ
  provider : Option String
deriving DecidableEq

/-- JS `String.prototype.includes`. -/
def strIncludes (s sub : String) : Bool :=
  decide (List.IsInfix sub.toList s.toList)

/-- The non-"auto" branch of the candidate selection: filter the registry by
the provider hint.  Note the `return true` fallthrough: a hint other than
"grok"/"deepseek" keeps every config. -/
def providerFiltered (registry : List ModelConfig) (provider : String) :
    List ModelConfig :=
  registry.filter fun config =>
    if provider = "grok" then strIncludes config.model "grok"
    else if provider = "deepseek" then strIncludes config.model "deepseek"
    else true

/-- `availableModels`: health-filtered registry under the "auto" hint, else
the provider-hint filter (which bypasses health). -/
def availableModels (registry : List ModelConfig) (provider : String)
    (hm : HealthMap) (now : Int) : List ModelConfig :=
  if provider = "auto" then getHealthyModels registry hm now
  else providerFiltered registry provider

/-- `finalMaxTokens = min(max(1, typeof max_tokens === "number" ?
max_tokens : MAX_TOKENS_DEFAULT), MAX_TOKENS_HARD_CAP)`. -/
def finalMaxTokens : NumField → Int
  | .num n => min (max 1 n) MAX_TOKENS_HARD_CAP
  | .notNum => min (max 1 MAX_TOKENS_DEFAULT) MAX_TOKENS_HARD_CAP

/-- The `POST` handler: validate `messages`, build the payload with the
clamped token count, select candidates by provider hint, reject an empty
candidate list, else run the model loop. -/
def post (body : ReqBody) (registry : List ModelConfig) (hm : HealthMap)
    (now : Int) (oracle : Oracle) : RunResult :=
  match body.messages with
  | .list (m :: ms) =>
    let payload : Payload :=
      ⟨m :: ms, finalMaxTokens body.maxTokens, body.temperature, body.topP⟩
    let models := availableModels registry (body.provider.getD "auto") hm now
    if models.isEmpty then ⟨[], hm, .noCandidates⟩
    else runModels oracle now payload models hm none
  | _ => ⟨[], hm, .invalidMessages⟩

/-- The backoff delay the loop sleeps after a retryable attempt (0-indexed
`attempt`): `2^attempt * 1000` ms after an HTTP response, the fixed 1000 ms
after a thrown transport exception. -/
def retryDelay (attempt : Nat) : TransportResult → Nat
  | .resp _ _ _ _ => 2 ^ attempt * 1000
  | .exn _ => 1000

/-- The `lastError` value recorded for one retryable attempt. -/
def stepErr (model : String) (attempt : Nat) : TransportResult → LastError
  | .resp status data raw _ =>
      .httpErr model status (detailsOf data raw) (attempt + 1)
  | .exn msg => .exnErr model msg (attempt + 1)

/-- The event trace of a fully retryable run of one model starting at a
given attempt with a given remaining budget: calls interleaved with the
backoff sleeps, and no sleep after the final attempt. -/
def expectedRetryTrace (oracle : Oracle) (model : String)
    (payload : Payload) : Nat → Nat → List Event
  | _, 0 => []
  | attempt, 1 => [.call model attempt payload]
  | attempt, r + 2 =>
    .call model attempt payload ::
      .sleep (retryDelay attempt (oracle model attempt)) ::
        expectedRetryTrace oracle model payload (attempt + 1) (r + 1)

/-- The event trace of a run that exhausts every model's retry budget. -/
def exhaustTrace (oracle : Oracle) (payload : Payload) :
    List ModelConfig → List Event
  | [] => []
  | mc :: rest =>
    expectedRetryTrace oracle mc.model payload 0 mc.maxRetries ++
      exhaustTrace oracle payload rest

/-- The `lastError` value after one model exhausts its budget with only
retryable failures (unchanged when the budget is 0). -/
def modelLastErr (oracle : Oracle) (mc : ModelConfig)
    (le : Option LastError) : Option LastError :=
  if mc.maxRetries = 0 then le
  else some (stepErr mc.model (mc.maxRetries - 1)
    (oracle mc.model (mc.maxRetries - 1)))

/-- The `lastError` value after a list of models all exhaust their budgets
with only retryable failures. -/
def lastErrAfter (oracle : Oracle) :
    List ModelConfig → Option LastError → Option LastError
  | [], le => le
  | mc :: rest, le => lastErrAfter oracle rest (modelLastErr oracle mc le)

/-- Every attempt of every model in the list classifies as retryable under
the oracle (retryable HTTP failure or transport exception). -/
def AllRetry (oracle : Oracle) (ms : List ModelConfig) : Prop :=
  ∀ mc ∈ ms, ∀ j < mc.maxRetries,
    isRetryStep (classifyStep mc.model j (oracle mc.model j)) = true

def prependTrace (tr : List Event) (rr : RunResult) : RunResult :=
  ⟨tr ++ rr.trace, rr.health, rr.outcome⟩

/-- A sample chat message, payload, request bodies and oracles used as
concrete inputs in witnesses and counterexamples. -/
def msgHello : ChatMessage := ⟨"user", "hello"⟩

def payloadX : Payload := ⟨[msgHello], 1200, none, none⟩

def oracle429 : Oracle := fun _ _ => .resp 429 none "overloaded" 5

def oracleOk : Oracle := fun _ _ => .resp 200 (some ⟨none, "ok"⟩) "ok" 7

def bodyAnthropic : ReqBody :=
  ⟨.list [msgHello], .notNum, none, none, some "anthropic"⟩

def bodyZero : ReqBody := ⟨.list [msgHello], .num 0, none, none, none⟩

/-- The three default registry entries, named for use in concrete runs. -/
def mcGrok : ModelConfig := ⟨"x-ai/grok-4-fast:free", 1, 2⟩

def mcDeepseek : ModelConfig := ⟨"deepseek/deepseek-chat", 2, 3⟩

def mcLlama : ModelConfig := ⟨"meta-llama/llama-3.1-8b-instruct:free", 3, 1⟩

/-- The payload `post` builds from `bodyZero` (requested `max_tokens = 0`
clamps to 1). -/
def payloadZero : Payload := ⟨[msgHello], 1, none, none⟩

/-- A health map holding a record with five consecutive failures for every
model. -/
def hmFive : HealthMap := fun _ => some ⟨0, 5, 0⟩

/-- A health record for the primary model: 4 failures, last success 10
minutes before the reference time 1000000. -/
def hmOld : HealthMap := fun m =>
  if m = "x-ai/grok-4-fast:free" then some ⟨400000, 4, 0⟩ else none

/-- A health record for the primary model: 4 failures, last success 1
minute before the reference time 1000000. -/
def hmRecent : HealthMap := fun m =>
  if m = "x-ai/grok-4-fast:free" then some ⟨940000, 4, 0⟩ else none

/-- The second model answers 400 (fatal), every other model 429. -/
def oracleFatal2 : Oracle := fun m _ =>
  if m = "deepseek/deepseek-chat" then .resp 400 none "bad request" 3
  else .resp 429 none "overloaded" 5

/-- Attempt 1 throws a transport exception, other attempts answer 429. -/
def oracleMixed : Oracle := fun _ a =>
  if a = 1 then .exn "timeout" else .resp 429 none "overloaded" 5

def mcM : ModelConfig := ⟨"m", 1, 3⟩

/-- The third default model succeeds, the others answer 429. -/
def oracleThird : Oracle := fun m _ =>
  if m = "meta-llama/llama-3.1-8b-instruct:free" then
    .resp 200 (some ⟨none, "ok"⟩) "ok" 9
  else .resp 429 none "overloaded" 5

/-- Every model answers 200 with a body that does not parse as JSON. -/
def oracleBadJson : Oracle := fun _ _ => .resp 200 none "<html>" 4

instance (oracle : Oracle) (ms : List ModelConfig) :
    Decidable (AllRetry oracle ms) := by
  unfold AllRetry
  infer_instance

theorem classify_retry_eq (model : String) (attempt : Nat)
    (t : TransportResult) (e : LastError) (d : Nat)
    (h : classifyStep model attempt t = .retry e d) :
    e = stepErr model attempt t ∧ d = retryDelay attempt t := by
  cases t with
  | exn msg => simp_all [classifyStep, stepErr, retryDelay]
  | resp status data raw rt =>
    cases data with
    | none =>
      simp only [classifyStep] at h
      split at h <;> simp_all [stepErr, retryDelay]
    | some v =>
      cases hok : respOk status with
      | true => simp [classifyStep, hok] at h
      | false =>
        simp only [classifyStep, hok] at h
        split at h <;> simp_all [stepErr, retryDelay]

theorem runAttempts_all_retry (oracle : Oracle) (now : Int)
    (payload : Payload) (mc : ModelConfig) :
    ∀ (remaining attempt : Nat) (hm : HealthMap) (le : Option LastError),
    attempt + remaining = mc.maxRetries →
    (∀ j, attempt ≤ j → j < mc.maxRetries →
      isRetryStep (classifyStep mc.model j (oracle mc.model j)) = true) →
    ∃ hm', runAttempts oracle now payload mc attempt remaining hm le =
      ⟨expectedRetryTrace oracle mc.model payload attempt remaining, hm', none,
       if remaining = 0 then le
       else some (stepErr mc.model (mc.maxRetries - 1)
         (oracle mc.model (mc.maxRetries - 1)))⟩ := by
  intro remaining
  induction remaining with
  | zero =>
    intro attempt hm le _ _
    exact ⟨hm, by simp [runAttempts, expectedRetryTrace]⟩
  | succ r ih =>
    intro attempt hm le hsum hret
    have hj := hret attempt (Nat.le_refl _) (by omega)
    obtain ⟨e, d, hc⟩ : ∃ e d,
        classifyStep mc.model attempt (oracle mc.model attempt) =
          .retry e d := by
      cases hcc : classifyStep mc.model attempt (oracle mc.model attempt) <;>
        simp_all [isRetryStep]
    obtain ⟨he, hd⟩ := classify_retry_eq _ _ _ _ _ hc
    by_cases hlt : attempt + 1 < mc.maxRetries
    · obtain ⟨r', rfl⟩ : ∃ r', r = r' + 1 := ⟨r - 1, by omega⟩
      obtain ⟨hm2, hrec⟩ := ih (attempt + 1)
        (healthStep hm mc.model now (oracle mc.model attempt)) (some e)
        (by omega) (fun j hj1 hj2 => hret j (by omega) hj2)
      refine ⟨hm2, ?_⟩
      rw [runAttempts, hc]
      simp only [hlt, if_true]
      rw [hrec]
      simp [expectedRetryTrace, he, hd]
    · have hr0 : r = 0 := by omega
      subst hr0
      refine ⟨healthStep hm mc.model now (oracle mc.model attempt), ?_⟩
      have hA : mc.maxRetries - 1 = attempt := by omega
      rw [runAttempts, hc]
      simp only [hlt, if_false, expectedRetryTrace, hA, he]
      simp

theorem runModels_append_all_retry (oracle : Oracle) (now : Int)
    (payload : Payload) :
    ∀ (pre rest : List ModelConfig) (hm : HealthMap) (le : Option LastError),
    AllRetry oracle pre →
    ∃ hm', runModels oracle now payload (pre ++ rest) hm le =
      prependTrace (exhaustTrace oracle payload pre)
        (runModels oracle now payload rest hm'
          (lastErrAfter oracle pre le)) := by
  intro pre
  induction pre with
  | nil =>
    intro rest hm le _
    exact ⟨hm, by simp [prependTrace, exhaustTrace, lastErrAfter]⟩
  | cons mc pre' ih =>
    intro rest hm le hall
    obtain ⟨hmA, hA⟩ := runAttempts_all_retry oracle now payload mc
      mc.maxRetries 0 hm le (by omega)
      (fun j _ hj2 => hall mc (List.mem_cons_self mc pre') j hj2)
    obtain ⟨hm', hrec⟩ := ih rest hmA (modelLastErr oracle mc le)
      (fun m hmem j hj => hall m (List.mem_cons_of_mem mc hmem) j hj)
    refine ⟨hm', ?_⟩
    rw [List.cons_append, runModels, hA]
    simp only [modelLastErr, exhaustTrace, lastErrAfter]
    rw [show (if mc.maxRetries = 0 then le
        else some (stepErr mc.model (mc.maxRetries - 1)
          (oracle mc.model (mc.maxRetries - 1)))) = modelLastErr oracle mc le
      from rfl]
    rw [hrec]
    simp [prependTrace, modelLastErr]

theorem callCount_append (a b : List Event) :
    callCount (a ++ b) = callCount a + callCount b := by
  simp [callCount, List.filter_append]

theorem callCount_expectedRetryTrace (oracle : Oracle) (model : String)
    (payload : Payload) :
    ∀ (remaining attempt : Nat),
    callCount (expectedRetryTrace oracle model payload attempt remaining) =
      remaining := by
  intro remaining
  induction remaining with
  | zero => intro attempt; simp [expectedRetryTrace, callCount]
  | succ r ih =>
    intro attempt
    cases r with
    | zero => simp [expectedRetryTrace, callCount, Event.isCall]
    | succ r' =>
      simp [expectedRetryTrace, callCount, Event.isCall] at ih ⊢
      exact ih (attempt + 1)

theorem callCount_exhaustTrace (oracle : Oracle) (payload : Payload) :
    ∀ ms : List ModelConfig,
    callCount (exhaustTrace oracle payload ms) =
      (ms.map fun mc => mc.maxRetries).sum := by
  intro ms
  induction ms with
  | nil => simp [exhaustTrace, callCount]
  | cons mc rest ih =>
    simp [exhaustTrace, callCount_append, ih,
      callCount_expectedRetryTrace]

theorem callsTo_append (a b : List Event) (m : String) :
    callsTo (a ++ b) m = callsTo a m + callsTo b m := by
  simp [callsTo, List.filter_append]

theorem callsTo_expectedRetryTrace_ne (oracle : Oracle) (model : String)
    (payload : Payload) (m : String) (hne : model ≠ m) :
    ∀ (remaining attempt : Nat),
    callsTo (expectedRetryTrace oracle model payload attempt remaining) m =
      0 := by
  intro remaining
  induction remaining with
  | zero => intro attempt; simp [expectedRetryTrace, callsTo]
  | succ r ih =>
    intro attempt
    cases r with
    | zero => simp [expectedRetryTrace, callsTo, hne]
    | succ r' =>
      have hb : (model == m) = false := by simp [hne]
      simp only [expectedRetryTrace, callsTo, List.filter] at ih ⊢
      simp [hb, ih (attempt + 1)]

theorem callsTo_exhaustTrace_notMem (oracle : Oracle) (payload : Payload)
    (m : String) :
    ∀ ms : List ModelConfig, m ∉ ms.map (fun mc => mc.model) →
    callsTo (exhaustTrace oracle payload ms) m = 0 := by
  intro ms
  induction ms with
  | nil => intro _; simp [exhaustTrace, callsTo]
  | cons mc rest ih =>
    intro hnm
    simp only [List.map_cons, List.mem_cons] at hnm
    push_neg at hnm
    simp [exhaustTrace, callsTo_append, ih hnm.2,
      callsTo_expectedRetryTrace_ne oracle mc.model payload m
        (fun h => hnm.1 h.symm)]

theorem classify_fatal (model : String) (attempt : Nat) (st : Nat)
    (data : Option RespData) (raw : String) (rt : Nat)
    (hnok : respOk st = false) (hnfb : shouldFallback st data = false) :
    classifyStep model attempt (.resp st data raw rt) =
      .fatalStep st (detailsOf data raw) := by
  cases data <;> simp [classifyStep, hnok, hnfb]

theorem classify_succ (model : String) (attempt : Nat) (st : Nat)
    (d : RespData) (raw : String) (rt : Nat) (hok : respOk st = true) :
    classifyStep model attempt (.resp st (some d) raw rt) = .succOut d rt := by
  simp [classifyStep, hok]

theorem respOk_not_fallback (st : Nat) (hok : respOk st = true) :
    FALLBACK_STATUS.contains st = false := by
  simp [respOk] at hok
  simp [FALLBACK_STATUS, List.contains]
  omega

theorem runAttempts_first_succ (oracle : Oracle) (now : Int)
    (payload : Payload) (mc : ModelConfig) (attempt r : Nat)
    (hm : HealthMap) (le : Option LastError) (d : RespData) (rt : Nat)
    (hc : classifyStep mc.model attempt (oracle mc.model attempt) =
      .succOut d rt) :
    runAttempts oracle now payload mc attempt (r + 1) hm le =
      ⟨[.call mc.model attempt payload],
       healthStep hm mc.model now (oracle mc.model attempt),
       some (.success mc.model rt (attempt + 1) d), le⟩ := by
  rw [runAttempts, hc]

theorem runAttempts_first_fatal (oracle : Oracle) (now : Int)
    (payload : Payload) (mc : ModelConfig) (attempt r : Nat)
    (hm : HealthMap) (le : Option LastError) (st : Nat) (det : Details)
    (hc : classifyStep mc.model attempt (oracle mc.model attempt) =
      .fatalStep st det) :
    runAttempts oracle now payload mc attempt (r + 1) hm le =
      ⟨[.call mc.model attempt payload],
       healthStep hm mc.model now (oracle mc.model attempt),
       some (.fatal mc.model st (attempt + 1) det), le⟩ := by
  rw [runAttempts, hc]

theorem runModels_cons_terminal (oracle : Oracle) (now : Int)
    (payload : Payload) (mc : ModelConfig) (rest : List ModelConfig)
    (hm : HealthMap) (le le2 : Option LastError) (o : Outcome)
    (tr : List Event) (hmX : HealthMap)
    (hA : runAttempts oracle now payload mc 0 mc.maxRetries hm le =
      ⟨tr, hmX, some o, le2⟩) :
    runModels oracle now payload (mc :: rest) hm le = ⟨tr, hmX, o⟩ := by
  rw [runModels, hA]

theorem runAttempts_result_cases (oracle : Oracle) (now : Int)
    (payload : Payload) (mc : ModelConfig) :
    ∀ (remaining attempt : Nat) (hm : HealthMap) (le : Option LastError)
      (o : Outcome),
    (runAttempts oracle now payload mc attempt remaining hm le).result =
      some o →
    o ≠ .noCandidates ∧ o ≠ .invalidMessages ∧
      ∀ le2, o ≠ .aggregate le2 := by
  intro remaining
  induction remaining with
  | zero => intro attempt hm le o h; simp [runAttempts] at h
  | succ r ih =>
    intro attempt hm le o h
    rw [runAttempts] at h
    split at h
    · simp at h
      simp [← h]
    · simp at h
      simp [← h]
    · split at h
      · exact ih _ _ _ _ h
      · simp at h

theorem runModels_outcome_loop (oracle : Oracle) (now : Int)
    (payload : Payload) :
    ∀ (ms : List ModelConfig) (hm : HealthMap) (le : Option LastError),
    (runModels oracle now payload ms hm le).outcome ≠ .noCandidates ∧
    (runModels oracle now payload ms hm le).outcome ≠ .invalidMessages := by
  intro ms
  induction ms with
  | nil => intro hm le; simp [runModels]
  | cons mc rest ih =>
    intro hm le
    rw [runModels]
    cases hA : (runAttempts oracle now payload mc 0 mc.maxRetries hm
        le).result with
    | some o =>
      obtain ⟨h1, h2, _⟩ := runAttempts_result_cases oracle now payload mc
        _ _ _ _ _ hA
      simp [h1, h2]
    | none =>
      simp only
      exact ih _ _

theorem runAttempts_call_payload (oracle : Oracle) (now : Int)
    (payload : Payload) (mc : ModelConfig) :
    ∀ (remaining attempt : Nat) (hm : HealthMap) (le : Option LastError)
      (m : String) (a : Nat) (p : Payload),
    Event.call m a p ∈
      (runAttempts oracle now payload mc attempt remaining hm le).trace →
    p = payload := by
  intro remaining
  induction remaining with
  | zero => intro attempt hm le m a p h; simp [runAttempts] at h
  | succ r ih =>
    intro attempt hm le m a p h
    rw [runAttempts] at h
    split at h
    · simp at h; exact h.2.2
    · simp at h; exact h.2.2
    · split at h
      · simp only [List.mem_cons] at h
        rcases h with h | h | h
        · injection h
        · exact absurd h (by simp)
        · exact ih _ _ _ _ _ _ h
      · simp at h; exact h.2.2

theorem runModels_call_payload (oracle : Oracle) (now : Int)
    (payload : Payload) :
    ∀ (ms : List ModelConfig) (hm : HealthMap) (le : Option LastError)
      (m : String) (a : Nat) (p : Payload),
    Event.call m a p ∈ (runModels oracle now payload ms hm le).trace →
    p = payload := by
  intro ms
  induction ms with
  | nil => intro hm le m a p h; simp [runModels] at h
  | cons mc rest ih =>
    intro hm le m a p h
    rw [runModels] at h
    cases hA : (runAttempts oracle now payload mc 0 mc.maxRetries hm
        le).result with
    | some o =>
      rw [hA] at h
      simp only at h
      exact runAttempts_call_payload oracle now payload mc _ _ _ _ _ _ _ h
    | none =>
      rw [hA] at h
      simp only [List.mem_append] at h
      rcases h with h | h
      · exact runAttempts_call_payload oracle now payload mc _ _ _ _ _ _ _ h
      · exact ih _ _ _ _ _ h

/-- C1 (amended): when every candidate model exhausts its retry budget with
only retryable failures, the orchestration returns the aggregate failure
response carrying the most recent attempt's recorded outcome (`lastError`),
and the total number of transport invocations equals the sum over candidate
models of each model's `maxRetries`. -/
theorem exhaustion_aggregate_call_count (oracle : Oracle) (now : Int)
    (payload : Payload) (ms : List ModelConfig) (hm : HealthMap)
    (hall : AllRetry oracle ms) :
    (runModels oracle now payload ms hm none).outcome =
      .aggregate (lastErrAfter oracle ms none) ∧
    callCount (runModels oracle now payload ms hm none).trace =
      (ms.map fun mc => mc.maxRetries).sum := by
  obtain ⟨hm', h⟩ := runModels_append_all_retry oracle now payload ms [] hm
    none hall
  rw [List.append_nil] at h
  rw [h]
  refine ⟨by simp [prependTrace, runModels], ?_⟩
  simp only [prependTrace, runModels, List.append_nil]
  exact callCount_exhaustTrace oracle payload ms

/-- C1 witness: the default three-model registry under an always-429 oracle
returns the aggregate outcome and makes 2 + 3 + 1 transport calls. -/
theorem exhaustion_aggregate_call_count_witness :
    (runModels oracle429 0 payloadX defaultConfigs emptyHealth none).outcome =
      .aggregate (lastErrAfter oracle429 defaultConfigs none) ∧
    callCount
      (runModels oracle429 0 payloadX defaultConfigs emptyHealth none).trace =
      (defaultConfigs.map fun mc => mc.maxRetries).sum :=
  exhaustion_aggregate_call_count oracle429 0 payloadX defaultConfigs
    emptyHealth (by decide)

/-- C1 counterexample: with the default registry (budget sum 6) and an
always-429 oracle, the aggregate response contains exactly one attempt
outcome — the `lastError` — not a list of length 6, refuting the claim that
the AggregateFailure contains every attempt's outcome with attempt-list
length equal to the sum of the budgets. -/
theorem aggregate_contains_only_last_error :
    (Outcome.attemptsContained
      (runModels oracle429 0 payloadX defaultConfigs emptyHealth
        none).outcome).map List.length = some 1 ∧
    (defaultConfigs.map fun mc => mc.maxRetries).sum = 6 ∧
    (Outcome.attemptsContained
      (runModels oracle429 0 payloadX defaultConfigs emptyHealth
        none).outcome).map List.length ≠
      some ((defaultConfigs.map fun mc => mc.maxRetries).sum) := by
  refine ⟨by decide, by decide, by decide⟩

/-- C2: an attempt answered by an HTTP failure whose status is outside the
fallback set and whose parsed error code is not retryable aborts the whole
orchestration at once: the outcome is that single failure (model, status,
parsed-or-raw body, attempt 1), the trace ends at that call — models after
the failing one are never invoked, however many remain — and exactly one
call is made to the failing model. -/
theorem fatal_short_circuit (oracle : Oracle) (now : Int) (payload : Payload)
    (pre : List ModelConfig) (mc : ModelConfig) (post2 : List ModelConfig)
    (hm : HealthMap) (st : Nat) (data : Option RespData) (raw : String)
    (rt : Nat)
    (hpre : AllRetry oracle pre)
    (hn : 1 ≤ mc.maxRetries)
    (hname : mc.model ∉ pre.map fun c => c.model)
    (hres : oracle mc.model 0 = .resp st data raw rt)
    (hnok : respOk st = false)
    (hst : FALLBACK_STATUS.contains st = false)
    (hcode : retryableCode data = false) :
    (runModels oracle now payload (pre ++ mc :: post2) hm none).outcome =
      .fatal mc.model st 1 (detailsOf data raw) ∧
    (runModels oracle now payload (pre ++ mc :: post2) hm none).trace =
      exhaustTrace oracle payload pre ++ [.call mc.model 0 payload] ∧
    callsTo (runModels oracle now payload (pre ++ mc :: post2) hm none).trace
      mc.model = 1 := by
  have hfb : shouldFallback st data = false := by
    unfold shouldFallback
    rw [hst, hcode]
    rfl
  have hcf : classifyStep mc.model 0 (oracle mc.model 0) =
      .fatalStep st (detailsOf data raw) := by
    rw [hres]
    exact classify_fatal _ _ _ _ _ _ hnok hfb
  obtain ⟨r, hr⟩ : ∃ r, mc.maxRetries = r + 1 := ⟨mc.maxRetries - 1, by omega⟩
  obtain ⟨hm', hpp⟩ := runModels_append_all_retry oracle now payload pre
    (mc :: post2) hm none hpre
  have hA := runAttempts_first_fatal oracle now payload mc 0 r hm'
    (lastErrAfter oracle pre none) st (detailsOf data raw) hcf
  rw [← hr] at hA
  have hM := runModels_cons_terminal oracle now payload mc post2 hm'
    (lastErrAfter oracle pre none) _ _ _ _ hA
  rw [hpp, hM]
  refine ⟨rfl, rfl, ?_⟩
  simp only [prependTrace]
  rw [callsTo_append, callsTo_exhaustTrace_notMem oracle payload mc.model pre
    hname]
  simp [callsTo]

/-- C2 witness: the second default model answering 400 aborts with a single
recorded attempt although the first model fails retryably and a healthy
third model remains. -/
theorem fatal_short_circuit_witness :
    (runModels oracleFatal2 0 payloadX ([mcGrok] ++ mcDeepseek :: [mcLlama])
      emptyHealth none).outcome =
      .fatal "deepseek/deepseek-chat" 400 1 (.rawBody "bad request") ∧
    callsTo (runModels oracleFatal2 0 payloadX
      ([mcGrok] ++ mcDeepseek :: [mcLlama]) emptyHealth none).trace
      "deepseek/deepseek-chat" = 1 := by
  have h := fatal_short_circuit oracleFatal2 0 payloadX [mcGrok] mcDeepseek
    [mcLlama] emptyHealth 400 none "bad request" 3 (by decide) (by decide)
    (by decide) rfl (by decide) (by decide) (by decide)
  exact ⟨h.1, h.2.2⟩

/-- C3 (amended): a provider hint that is neither "auto" nor one of the
known tags "grok"/"deepseek" filters nothing — the candidate set is the
entire registry — and, with a non-empty registry and valid messages, the
orchestration proceeds (its outcome is never the "no candidates" error). -/
theorem unknown_hint_yields_full_registry (registry : List ModelConfig)
    (hm : HealthMap) (now : Int) (provider : String)
    (h1 : provider ≠ "auto") (h2 : provider ≠ "grok")
    (h3 : provider ≠ "deepseek") :
    availableModels registry provider hm now = registry ∧
    ∀ (body : ReqBody) (oracle : Oracle) (m : ChatMessage)
      (ms : List ChatMessage),
      body.provider = some provider → body.messages = .list (m :: ms) →
      registry ≠ [] →
      (post body registry hm now oracle).outcome ≠ .noCandidates := by
  have hav : availableModels registry provider hm now = registry := by
    unfold availableModels providerFiltered
    rw [if_neg h1]
    refine List.filter_eq_self.mpr ?_
    intro c _
    rw [if_neg h2, if_neg h3]
  refine ⟨hav, ?_⟩
  intro body oracle m ms hp hmsg hne
  have hemp : registry.isEmpty = false := by
    cases registry with
    | nil => exact absurd rfl hne
    | cons a l => rfl
  simp only [post, hmsg, hp, Option.getD_some, hav, hemp, Bool.false_eq_true,
    if_false]
  exact (runModels_outcome_loop oracle now _ registry hm none).1

/-- C3 witness: the unknown hint "mistral" yields the full default registry
and the orchestration does not end in the no-candidates error. -/
theorem unknown_hint_yields_full_registry_witness :
    availableModels defaultConfigs "mistral" emptyHealth 0 = defaultConfigs ∧
    (post ⟨.list [msgHello], .notNum, none, none, some "mistral"⟩
      defaultConfigs emptyHealth 0 oracle429).outcome ≠ .noCandidates := by
  have h := unknown_hint_yields_full_registry defaultConfigs emptyHealth 0
    "mistral" (by decide) (by decide) (by decide)
  exact ⟨h.1, h.2 _ oracle429 msgHello [] rfl rfl (by decide)⟩

/-- C3 counterexample: the unknown hint "anthropic" yields all three
registry models (not an empty set), the orchestration does not terminate
with the no-candidates error, and at least one transport invocation
occurs — refuting the claim that an unknown hint gives an empty candidate
set and an immediate "no candidates" termination. -/
theorem unknown_hint_not_empty :
    availableModels defaultConfigs "anthropic" emptyHealth 0 =
      defaultConfigs ∧
    (availableModels defaultConfigs "anthropic" emptyHealth 0).length = 3 ∧
    (post bodyAnthropic defaultConfigs emptyHealth 0 oracleOk).outcome ≠
      Outcome.noCandidates ∧
    callCount
      (post bodyAnthropic defaultConfigs emptyHealth 0 oracleOk).trace ≠
      0 := by
  refine ⟨by decide, by decide, by decide, by decide⟩

/-- C4: every payload sent upstream carries
`maxTokens = min(max(1, requested), hardCap)` when the request is numeric,
a value within `[1, hardCap]` in all cases, 1 when the request is ≤ 0, and
the hard cap when the request is at or above it. -/
theorem token_clamp_bounds (body : ReqBody) (registry : List ModelConfig)
    (hm : HealthMap) (now : Int) (oracle : Oracle) (m : String) (a : Nat)
    (p : Payload)
    (hcall : Event.call m a p ∈ (post body registry hm now oracle).trace) :
    (∀ n, body.maxTokens = .num n →
      p.maxTokens = min (max 1 n) MAX_TOKENS_HARD_CAP) ∧
    1 ≤ p.maxTokens ∧ p.maxTokens ≤ MAX_TOKENS_HARD_CAP ∧
    (∀ n, body.maxTokens = .num n → n ≤ 0 → p.maxTokens = 1) ∧
    (∀ n, body.maxTokens = .num n → MAX_TOKENS_HARD_CAP ≤ n →
      p.maxTokens = MAX_TOKENS_HARD_CAP) := by
  have hp : p.maxTokens = finalMaxTokens body.maxTokens := by
    rcases hmsg : body.messages with _ | _ | ms
    · simp [post, hmsg] at hcall
    · simp [post, hmsg] at hcall
    · cases ms with
      | nil => simp [post, hmsg] at hcall
      | cons mh mt =>
        simp only [post, hmsg] at hcall
        by_cases he :
          (availableModels registry (body.provider.getD "auto")
            hm now).isEmpty
        · simp [he] at hcall
        · simp only [he, Bool.false_eq_true, if_false] at hcall
          have hpp := runModels_call_payload oracle now _ _ _ _ _ _ _ hcall
          rw [hpp]
  rw [hp]
  refine ⟨fun n hn => by rw [hn]; rfl, ?_, ?_, fun n hn hle => ?_,
    fun n hn hge => ?_⟩
  · cases hv : body.maxTokens with
    | num n => exact le_min (le_max_left 1 n) (by decide)
    | notNum => decide
  · cases hv : body.maxTokens with
    | num n => exact min_le_right _ _
    | notNum => decide
  · rw [hn]
    simp only [finalMaxTokens, MAX_TOKENS_HARD_CAP]
    omega
  · rw [hn]
    simp only [finalMaxTokens, MAX_TOKENS_HARD_CAP]
    simp only [MAX_TOKENS_HARD_CAP] at hge
    omega

/-- C4 witness: requesting `max_tokens = 0` sends 1 upstream, within the
hard cap. -/
theorem token_clamp_bounds_witness :
    payloadZero.maxTokens = 1 ∧ 1 ≤ payloadZero.maxTokens ∧
    payloadZero.maxTokens ≤ MAX_TOKENS_HARD_CAP := by
  have h := token_clamp_bounds bodyZero defaultConfigs emptyHealth 0 oracleOk
    "x-ai/grok-4-fast:free" 0 payloadZero (by decide)
  exact ⟨h.2.2.2.1 0 rfl (by decide), h.2.1, h.2.2.1⟩

/-- C5: a model whose every attempt classifies as retryable is attempted
exactly `maxRetries` times; the trace interleaves the calls with backoff
sleeps of `2^attempt * 1000` ms after a retryable HTTP response and the
fixed 1000 ms after a transport exception, with no sleep after the final
attempt; the loop then yields no terminal result, so the next model is
tried. -/
theorem retry_budget_and_backoff (oracle : Oracle) (now : Int)
    (payload : Payload) (mc : ModelConfig) (hm : HealthMap)
    (le : Option LastError)
    (hall : ∀ j < mc.maxRetries,
      isRetryStep (classifyStep mc.model j (oracle mc.model j)) = true) :
    (runAttempts oracle now payload mc 0 mc.maxRetries hm le).trace =
      expectedRetryTrace oracle mc.model payload 0 mc.maxRetries ∧
    callCount
      (runAttempts oracle now payload mc 0 mc.maxRetries hm le).trace =
      mc.maxRetries ∧
    (runAttempts oracle now payload mc 0 mc.maxRetries hm le).result =
      none := by
  obtain ⟨hm', h⟩ := runAttempts_all_retry oracle now payload mc
    mc.maxRetries 0 hm le (by omega) (fun j _ hj => hall j hj)
  rw [h]
  exact ⟨rfl, callCount_expectedRetryTrace oracle mc.model payload _ _, rfl⟩

/-- C5 witness: three attempts (429, exception, 429) produce exactly three
calls with a 1000 ms sleep after each of the first two attempts (the
2^0 * 1000 backoff, then the fixed exception delay) and none after the
last. -/
theorem retry_budget_and_backoff_witness :
    (runAttempts oracleMixed 0 payloadX mcM 0 mcM.maxRetries emptyHealth
      none).trace =
      [.call "m" 0 payloadX, .sleep 1000, .call "m" 1 payloadX, .sleep 1000,
       .call "m" 2 payloadX] ∧
    callCount (runAttempts oracleMixed 0 payloadX mcM 0 mcM.maxRetries
      emptyHealth none).trace = mcM.maxRetries ∧
    (runAttempts oracleMixed 0 payloadX mcM 0 mcM.maxRetries emptyHealth
      none).result = none := by
  have h := retry_budget_and_backoff oracleMixed 0 payloadX mcM emptyHealth
    none (by decide)
  refine ⟨?_, h.2.1, h.2.2⟩
  rw [h.1]
  decide

/-- C6: models are tried in order with each model's retry budget exhausted
before the next one starts: after every earlier model fails retryably on
every attempt, a model whose first attempt succeeds yields the success
outcome with `attemptNumber = 1` and `modelUsed` equal to that model's
identifier, with the trace showing all earlier exhausted attempts before
its single call; moreover the candidate list produced by
`getHealthyModels` is sorted in ascending priority order. -/
theorem fallback_ordering_first_success (oracle : Oracle) (now : Int)
    (payload : Payload) (pre : List ModelConfig) (mc : ModelConfig)
    (post2 : List ModelConfig) (hm : HealthMap) (st : Nat) (d : RespData)
    (raw : String) (rt : Nat)
    (hpre : AllRetry oracle pre)
    (hn : 1 ≤ mc.maxRetries)
    (hres : oracle mc.model 0 = .resp st (some d) raw rt)
    (hok : respOk st = true) :
    (runModels oracle now payload (pre ++ mc :: post2) hm none).outcome =
      .success mc.model rt 1 d ∧
    (runModels oracle now payload (pre ++ mc :: post2) hm none).trace =
      exhaustTrace oracle payload pre ++ [.call mc.model 0 payload] ∧
    ∀ (registry : List ModelConfig) (hm2 : HealthMap) (now2 : Int),
      List.Sorted priorityOrder (getHealthyModels registry hm2 now2) := by
  have hcs : classifyStep mc.model 0 (oracle mc.model 0) = .succOut d rt := by
    rw [hres]
    exact classify_succ _ _ _ _ _ _ hok
  obtain ⟨r, hr⟩ : ∃ r, mc.maxRetries = r + 1 := ⟨mc.maxRetries - 1, by omega⟩
  obtain ⟨hm', hpp⟩ := runModels_append_all_retry oracle now payload pre
    (mc :: post2) hm none hpre
  have hA := runAttempts_first_succ oracle now payload mc 0 r hm'
    (lastErrAfter oracle pre none) d rt hcs
  rw [← hr] at hA
  have hM := runModels_cons_terminal oracle now payload mc post2 hm'
    (lastErrAfter oracle pre none) _ _ _ _ hA
  rw [hpp, hM]
  refine ⟨rfl, rfl, ?_⟩
  intro registry hm2 now2
  unfold getHealthyModels
  exact List.sorted_insertionSort priorityOrder _

/-- C6 witness: with priorities 1, 2, 3, the first two models always
failing with 429 and the third succeeding, the third model's first success
is returned with attempt number 1. -/
theorem fallback_ordering_first_success_witness :
    (runModels oracleThird 0 payloadX defaultConfigs emptyHealth
      none).outcome =
      .success "meta-llama/llama-3.1-8b-instruct:free" 9 1 ⟨none, "ok"⟩ := by
  have h := fallback_ordering_first_success oracleThird 0 payloadX
    [mcGrok, mcDeepseek] mcLlama [] emptyHealth 200 ⟨none, "ok"⟩ "ok" 9
    (by decide) (by decide) rfl (by decide)
  simpa [defaultConfigs, MODEL_CONFIGS, mcGrok, mcDeepseek, mcLlama]
    using h.1

/-- C10: an attempt answered with a 2xx status but a body that does not
parse as JSON is not a success: the parsed body is absent, a 2xx status is
not in the fallback set, so the run ends in the fatal branch carrying the
raw body and that upstream status, with no further retries or models
tried. -/
theorem ok_unparsed_body_fatal (oracle : Oracle) (now : Int)
    (payload : Payload) (pre : List ModelConfig) (mc : ModelConfig)
    (post2 : List ModelConfig) (hm : HealthMap) (st : Nat) (raw : String)
    (rt : Nat)
    (hpre : AllRetry oracle pre)
    (hn : 1 ≤ mc.maxRetries)
    (hres : oracle mc.model 0 = .resp st none raw rt)
    (hok : respOk st = true) :
    (runModels oracle now payload (pre ++ mc :: post2) hm none).outcome =
      .fatal mc.model st 1 (.rawBody raw) ∧
    (runModels oracle now payload (pre ++ mc :: post2) hm none).trace =
      exhaustTrace oracle payload pre ++ [.call mc.model 0 payload] := by
  have hfb : shouldFallback st none = false := by
    unfold shouldFallback
    rw [respOk_not_fallback st hok]
    rfl
  have hcf : classifyStep mc.model 0 (oracle mc.model 0) =
      .fatalStep st (.rawBody raw) := by
    rw [hres]
    simp [classifyStep, hfb, detailsOf]
  obtain ⟨r, hr⟩ : ∃ r, mc.maxRetries = r + 1 := ⟨mc.maxRetries - 1, by omega⟩
  obtain ⟨hm', hpp⟩ := runModels_append_all_retry oracle now payload pre
    (mc :: post2) hm none hpre
  have hA := runAttempts_first_fatal oracle now payload mc 0 r hm'
    (lastErrAfter oracle pre none) st (.rawBody raw) hcf
  rw [← hr] at hA
  have hM := runModels_cons_terminal oracle now payload mc post2 hm'
    (lastErrAfter oracle pre none) _ _ _ _ hA
  rw [hpp, hM]
  exact ⟨rfl, rfl⟩

/-- C10 witness: a 200 response with the unparseable body `<html>` on the
first model ends the orchestration as a single-attempt fatal error with
that status and raw body. -/
theorem ok_unparsed_body_fatal_witness :
    (runModels oracleBadJson 0 payloadX defaultConfigs emptyHealth
      none).outcome =
      .fatal "x-ai/grok-4-fast:free" 200 1 (.rawBody "<html>") := by
  have h := ok_unparsed_body_fatal oracleBadJson 0 payloadX [] mcGrok
    [mcDeepseek, mcLlama] emptyHealth 200 "<html>" 4 (by decide) (by decide)
    rfl (by decide)
  simpa [defaultConfigs, MODEL_CONFIGS, mcGrok, mcDeepseek, mcLlama]
    using h.1

/-- C7: `consecutiveFailures` never goes negative: a success sets
`lastSuccess` to now and decrements the failure count floored at 0 (not a
reset), a failure increments it leaving the other fields unchanged; in
particular a record at 5 failures sits at 4 after one success and at 1
after four consecutive successes. -/
theorem health_update_asymmetry (hm : HealthMap) (model : String)
    (now : Int) (rt : Option ℚ) (h : Health)
    (hrec : hm model = some h) (hnn : 0 ≤ h.failures) :
    (∃ h1, updateModelHealth hm model true rt now model = some h1 ∧
      h1.lastSuccess = now ∧ h1.failures = max 0 (h.failures - 1) ∧
      0 ≤ h1.failures) ∧
    (∃ h2, updateModelHealth hm model false rt now model = some h2 ∧
      h2.failures = h.failures + 1 ∧ h2.lastSuccess = h.lastSuccess ∧
      h2.avgResponseTime = h.avgResponseTime ∧ 0 < h2.failures) ∧
    ((updateModelHealth hmFive "m" true none 7) "m").map Health.failures =
      some 4 ∧
    ((updateModelHealth (updateModelHealth (updateModelHealth
      (updateModelHealth hmFive "m" true none 7) "m" true none 8) "m" true
      none 9) "m" true none 10) "m").map Health.failures = some 1 := by
  have hs : updateModelHealth hm model true rt now model = some
      ⟨now, max 0 (h.failures - 1),
       match rt with
       | some r =>
           if r ≠ 0 then (h.avgResponseTime + r) / 2 else h.avgResponseTime
       | none => h.avgResponseTime⟩ := by
    simp [updateModelHealth, hrec]
  have hf : updateModelHealth hm model false rt now model = some
      ⟨h.lastSuccess, h.failures + 1, h.avgResponseTime⟩ := by
    simp [updateModelHealth, hrec]
  refine ⟨⟨_, hs, rfl, rfl, ?_⟩, ⟨_, hf, rfl, rfl, rfl, ?_⟩, ?_, ?_⟩
  · exact le_max_left 0 (h.failures - 1)
  · show 0 < h.failures + 1
    omega
  · decide
  · decide

/-- C7 witness: applied to the record with 5 failures, one success yields
`lastSuccess = 7` and `failures = max 0 (5 - 1) = 4`, still
non-negative. -/
theorem health_update_asymmetry_witness :
    ∃ h1, updateModelHealth hmFive "m" true none 7 "m" = some h1 ∧
      h1.lastSuccess = 7 ∧ h1.failures = max 0 ((5 : Int) - 1) ∧
      0 ≤ h1.failures := by
  have h := health_update_asymmetry hmFive "m" 7 none ⟨0, 5, 0⟩ rfl
    (by decide)
  exact h.1

/-- C8: a registry entry appears in the health-filtered candidate list iff
it is in the registry and passes `healthFilter`; with a record present, it
is filtered out exactly when both `failures > 3` and
`now - lastSuccess > 300000`; with no record it always passes; under the
"auto" hint the primary model with 4 failures and a 10-minute-old success
is excluded while the same model with a 1-minute-old success is
included. -/
theorem healthy_filter_iff :
    (∀ (registry : List ModelConfig) (hm : HealthMap) (now : Int)
      (mc : ModelConfig),
      mc ∈ getHealthyModels registry hm now ↔
        mc ∈ registry ∧ healthFilter hm now mc = true) ∧
    (∀ (hm : HealthMap) (now : Int) (mc : ModelConfig) (h : Health),
      hm mc.model = some h →
      (healthFilter hm now mc = false ↔
        3 < h.failures ∧ 300000 < now - h.lastSuccess)) ∧
    (∀ (hm : HealthMap) (now : Int) (mc : ModelConfig),
      hm mc.model = none → healthFilter hm now mc = true) ∧
    mcGrok ∉ availableModels defaultConfigs "auto" hmOld 1000000 ∧
    mcGrok ∈ availableModels defaultConfigs "auto" hmRecent 1000000 := by
  refine ⟨?_, ?_, ?_, by decide, by decide⟩
  · intro registry hm now mc
    unfold getHealthyModels
    rw [(List.perm_insertionSort priorityOrder _).mem_iff, List.mem_filter]
  · intro hm now mc h hrec
    simp [healthFilter, hrec]
  · intro hm now mc hrec
    simp [healthFilter, hrec]

/-- C8 witness: the primary model's stale record (4 failures, last success
600000 ms before now) fails the health filter, while the model passes with
no record present. -/
theorem healthy_filter_iff_witness :
    healthFilter hmOld 1000000 mcGrok = false ∧
    healthFilter emptyHealth 1000000 mcGrok = true := by
  refine ⟨?_, ?_⟩
  · exact (healthy_filter_iff.2.1 hmOld 1000000 mcGrok ⟨400000, 4, 0⟩
      (by decide)).mpr (by decide)
  · exact healthy_filter_iff.2.2.1 emptyHealth 1000000 mcGrok rfl

/-- C9: a request whose `messages` field is absent, not a list, or the
empty list is rejected with the validation outcome before anything else
happens: the event trace is empty (zero transport invocations, zero
backoff sleeps) and the health map is returned unchanged. -/
theorem invalid_messages_rejected (body : ReqBody)
    (registry : List ModelConfig) (hm : HealthMap) (now : Int)
    (oracle : Oracle)
    (hbad : body.messages = .absent ∨ body.messages = .notList ∨
      body.messages = .list []) :
    post body registry hm now oracle = ⟨[], hm, .invalidMessages⟩ ∧
    callCount (post body registry hm now oracle).trace = 0 ∧
    (post body registry hm now oracle).health = hm := by
  have hp : post body registry hm now oracle = ⟨[], hm, .invalidMessages⟩ := by
    rcases hbad with h | h | h <;> simp [post, h]
  exact ⟨hp, by rw [hp]; rfl, by rw [hp]⟩

/-- C9 witness: the empty messages list is rejected with an empty trace and
an untouched health map. -/
theorem invalid_messages_rejected_witness :
    post ⟨.list [], .notNum, none, none, none⟩ defaultConfigs emptyHealth 0
      oracleOk = ⟨[], emptyHealth, .invalidMessages⟩ :=
  (invalid_messages_rejected ⟨.list [], .notNum, none, none, none⟩
    defaultConfigs emptyHealth 0 oracleOk (Or.inr (Or.inr rfl))).1
